import Mathlib

/-!
Shallow embedding of the folder-hierarchy / sharing / storage-path core of the
file-uploader web application, together with proofs settling the frozen claims
about its specification.

Conventions of the embedding:
* Prisma tables become flat Lean lists inside a `Store` structure; `findFirst` /
  `findUnique` queries become `List.find?` with the same boolean condition.
* Opaque string identifiers (cuid) stay `String`.
* Timestamps (JavaScript `Date` values, milliseconds since epoch) become `Nat`;
  the ambient `Date.now()` of a request is passed in explicitly as `now`.
* Each Express route handler becomes a pure function from the store (plus the
  request parameters and the outcomes of external effects such as the storage
  backend) to the new store and a response value.  Responses that only differ in
  presentation (flash message + redirect vs. rendered page) are collapsed into
  small inductive response types, one constructor per distinct outcome of the
  handler.
* The two share-traversal helpers in `app.js` are recursive/looping over data
  that can in principle be cyclic, so they are embedded with an explicit fuel
  argument; a `none` result means the source function has not produced an
  answer within `fuel` steps (so divergence = `none` for every fuel).
* Presentational details (the `orderBy` clauses, `_count` annotations and the
  exact flash texts) carry no claim content and are not modelled.
-/

namespace FileUploader

/-- A row of the `folders` table (prisma model `Folder`):
id, name, optional description, owning user id, optional parent folder id. -/
structure Folder where
  id : String
  name : String
  description : Option String
  userId : String
  parentId : Option String
deriving Repr, DecidableEq

/-- A row of the `files` table (prisma model `File`).  `storagePath` is `none`
for legacy records that predate the object-storage migration and only have the
local `path` field. -/
structure FileRec where
  id : String
  filename : String
  originalName : String
  mimeType : String
  size : Nat
  storagePath : Option String
  description : Option String
  isPublic : Bool
  userId : String
  folderId : Option String
deriving Repr, DecidableEq

/-- A row of the `shared_folders` table (prisma model `SharedFolder`). -/
structure SharedFolder where
  id : String
  token : String
  expiresAt : Nat
  folderId : String
  userId : String
deriving Repr, DecidableEq

/-- The persistent store: the three tables the core logic touches. -/
structure Store where
  folders : List Folder
  files : List FileRec
  shares : List SharedFolder
deriving Repr, DecidableEq

/-! ## Folder routes (`src/routes/users.js`, folder router part) -/

/-- JavaScript `String.prototype.trim`: strip whitespace from both ends
(embedded structurally over the character list so that it is fully
executable). -/
def jsTrim (s : String) : String :=
  String.mk (((s.data.dropWhile Char.isWhitespace).reverse.dropWhile Char.isWhitespace).reverse)

/-- Response of `POST /folders` (create folder).  `conflict` is the
"A folder with this name already exists in this location" redirect;
`dbError` is the catch-all "Unable to create folder" branch, reached e.g.
when `prisma.folder.create` throws because the `parentId` foreign key
references no existing folder row. -/
inductive CreateResp
  | conflict
  | dbError
  | success
deriving Repr, DecidableEq

/-- Embedding of `POST /folders` (users.js lines 186-223): look for a sibling
with the same (trimmed) name, same owner and same parent; on collision redirect
with the conflict flash; otherwise `prisma.folder.create` inserts the row,
subject to the store-level foreign-key constraint that a supplied `parentId`
references an existing `folders` row (any owner) — a violation throws and is
caught as the generic error branch.  Note the handler itself performs no
parent existence or parent ownership check. -/
def createFolderRoute (s : Store) (userId newId : String) (name : String)
    (description : Option String) (parentId : Option String) : Store × CreateResp :=
  if (s.folders.find? (fun f =>
        f.name == jsTrim name && f.userId == userId && f.parentId == parentId)).isSome then
    (s, .conflict)
  else
    match parentId with
    | none =>
        ({ s with folders := s.folders ++ [⟨newId, jsTrim name, description.map jsTrim, userId, none⟩] },
         .success)
    | some p =>
        if (s.folders.find? (fun f => f.id == p)).isSome then
          ({ s with folders := s.folders ++ [⟨newId, jsTrim name, description.map jsTrim, userId, some p⟩] },
           .success)
        else
          (s, .dbError)

/-- Response of `PUT /folders/:id` (update/move folder). -/
inductive UpdateResp
  | notFound
  | conflict
  | dbError
  | success
deriving Repr, DecidableEq

/-- Embedding of `PUT /folders/:id` (users.js lines 266-316): find the folder by
id and owner (`notFound` otherwise); reject if another folder of the same owner
under the new parent has the same trimmed name; otherwise update name,
description and `parentId` in place.  The store-level foreign key again
requires a supplied new `parentId` to reference an existing folder row (any
owner; the folder itself also qualifies).  The handler walks no ancestor
chain: there is no cycle guard and no ownership check on the new parent. -/
def updateFolderRoute (s : Store) (folderId userId : String) (name : String)
    (description : Option String) (parentId : Option String) : Store × UpdateResp :=
  match s.folders.find? (fun f => f.id == folderId && f.userId == userId) with
  | none => (s, .notFound)
  | some _ =>
    if (s.folders.find? (fun f =>
          f.name == jsTrim name && f.userId == userId && f.parentId == parentId
            && !(f.id == folderId))).isSome then
      (s, .conflict)
    else
      let fkOk : Bool := match parentId with
        | none => true
        | some p => (s.folders.find? (fun f => f.id == p)).isSome
      if fkOk then
        ({ s with folders := s.folders.map (fun (f : Folder) =>
            if f.id == folderId then
              { f with name := jsTrim name, description := description.map jsTrim,
                       parentId := parentId }
            else f) },
         .success)
      else
        (s, .dbError)

/-- Response of `DELETE /folders/:id`. -/
inductive DeleteResp
  | notFound
  | notEmpty
  | success
deriving Repr, DecidableEq

/-- Embedding of `DELETE /folders/:id` (users.js lines 319-357): find the folder
by id and owner, load its child folders and its files, refuse with the
"Cannot delete folder that contains files or subfolders" branch when either is
non-empty, otherwise delete the row (the store cascades the folder's share
links, per the `shared_folders.folderId` foreign key). -/
def deleteFolderRoute (s : Store) (folderId userId : String) : Store × DeleteResp :=
  match s.folders.find? (fun f => f.id == folderId && f.userId == userId) with
  | none => (s, .notFound)
  | some _ =>
    let children := s.folders.filter (fun f => f.parentId == some folderId)
    let childFiles := s.files.filter (fun f => f.folderId == some folderId)
    if children.length > 0 ∨ childFiles.length > 0 then
      (s, .notEmpty)
    else
      ({ s with folders := s.folders.filter (fun f => !(f.id == folderId)),
                shares := s.shares.filter (fun sh => !(sh.folderId == folderId)) },
       .success)

/-! ## Share traversal helpers (`src/app.js` lines 351-382) -/

/-- Embedding of `verifyFolderInHierarchy(folderId, rootFolderId)` (app.js
lines 351-362), a recursive upward walk with no bound of its own; `fuel`
makes the recursion total, `none` meaning the source recursion has not
returned within `fuel` calls. -/
def verifyFolderInHierarchy (s : Store) : Nat → String → String → Option Bool
  | 0, _, _ => none
  | fuel + 1, folderId, rootFolderId =>
    if folderId = rootFolderId then some true
    else
      match s.folders.find? (fun f => f.id == folderId) with
      | none => some false
      | some f =>
        match f.parentId with
        | none => some false
        | some p => verifyFolderInHierarchy s fuel p rootFolderId

/-- Embedding of `buildFolderPath(folderId, rootFolderId)` (app.js lines
365-382), the breadcrumb loop: walk up from `folderId`, prepending
`(id, name)` of each visited folder, stopping when the current id is the
root, is null, or has no folder row.  The loop has no bound of its own;
`none` means it has not finished within `fuel` iterations. -/
def buildFolderPath (s : Store) : Nat → Option String → String → Option (List (String × String))
  | 0, _, _ => none
  | fuel + 1, currentId, rootFolderId =>
    match currentId with
    | none => some []
    | some cid =>
      if cid = rootFolderId then some []
      else
        match s.folders.find? (fun f => f.id == cid) with
        | none => some []
        | some f =>
          (buildFolderPath s fuel f.parentId rootFolderId).map
            (fun rest => rest ++ [(f.id, f.name)])

/-! ## Public share routes (`src/app.js` lines 190-348) -/

/-- Embedding of `isExpired(expirationDate)` from `utils/duration`
(`new Date() > expirationDate`); the ambient current time is `now`. -/
def isExpired (now expirationDate : Nat) : Bool :=
  decide (expirationDate < now)

/-- Error outcomes of the two public share routes.  `notFound` is the 404
"Share Not Found" page, `expired` the 410 "Share Expired" page (a distinct
response), `folderMissing` the 404 "Folder Not Found" page of the subfolder
route, `forbidden` the 403 "Access Denied" page, and `serverError` the 500
catch-all (reached e.g. if the share row's folder reference dangles, which
the store's foreign keys normally prevent). -/
inductive ShareErr
  | notFound
  | expired
  | folderMissing
  | forbidden
  | serverError
deriving Repr, DecidableEq

/-- The data handed to the `share/folder` view: the folder being shown, its
immediate files, its immediate child folders, and the breadcrumb path. -/
structure ShareView where
  folder : Folder
  files : List FileRec
  subfolders : List Folder
  currentPath : List (String × String)
deriving Repr, DecidableEq

/-- The immediate files of a folder (the `files` relation include). -/
def filesOf (s : Store) (folderId : String) : List FileRec :=
  s.files.filter (fun f => f.folderId == some folderId)

/-- The immediate child folders of a folder (the `children` relation include). -/
def childrenOf (s : Store) (folderId : String) : List Folder :=
  s.folders.filter (fun f => f.parentId == some folderId)

/-- Embedding of `GET /share/:token` (app.js lines 190-256): look the share up
by token (404 if absent), check expiry (410 if expired), then render the shared
root folder with its immediate files and immediate child folders and an empty
breadcrumb. -/
def resolveShare (s : Store) (now : Nat) (token : String) : Except ShareErr ShareView :=
  match s.shares.find? (fun sh => sh.token == token) with
  | none => .error .notFound
  | some sh =>
    if isExpired now sh.expiresAt then .error .expired
    else
      match s.folders.find? (fun f => f.id == sh.folderId) with
      | none => .error .serverError
      | some folder =>
        .ok { folder := folder, files := filesOf s folder.id,
              subfolders := childrenOf s folder.id, currentPath := [] }

/-- Embedding of `GET /share/:token/folder/:folderId` (app.js lines 259-348):
re-resolve the token (repeating the 404/410 checks), load the requested folder
(404 if absent), verify it lies in the shared root's hierarchy (403 if not),
build the breadcrumb, and render.  The outer `Option` is the fuel of the two
unbounded walks: `none` means they have not answered within `fuel` steps. -/
def resolveSubfolder (s : Store) (now : Nat) (fuel : Nat) (token : String)
    (folderId : String) : Option (Except ShareErr ShareView) :=
  match s.shares.find? (fun sh => sh.token == token) with
  | none => some (.error .notFound)
  | some sh =>
    if isExpired now sh.expiresAt then some (.error .expired)
    else
      match s.folders.find? (fun f => f.id == folderId) with
      | none => some (.error .folderMissing)
      | some requested =>
        match verifyFolderInHierarchy s fuel folderId sh.folderId with
        | none => none
        | some false => some (.error .forbidden)
        | some true =>
          match buildFolderPath s fuel (some folderId) sh.folderId with
          | none => none
          | some path =>
            some (.ok { folder := requested, files := filesOf s folderId,
                        subfolders := childrenOf s folderId, currentPath := path })

/-! ## File routes (`src/routes/files.js`) -/

/-- Error outcome of the file info / download / preview routes: the only
failure the visibility rule produces is the 404 page. -/
inductive FileErr
  | notFound
deriving Repr, DecidableEq

/-- The shared `findFirst` condition of the info, download and preview
routes: match on id, and require the requester to be the owner or the file to
be public. -/
def fileVisibleQuery (fileId requester : String) (f : FileRec) : Bool :=
  f.id == fileId && (f.userId == requester || f.isPublic)

/-- Embedding of `GET /files/:id` (files.js lines 268-299): `findFirst` with
the visibility condition; 404 when nothing matches, otherwise render the file
record. -/
def getFileInfoRoute (s : Store) (fileId requester : String) : Except FileErr FileRec :=
  match s.files.find? (fileVisibleQuery fileId requester) with
  | none => .error .notFound
  | some f => .ok f

/-- Embedding of the resolution step of `GET /files/:id/download` (files.js
lines 177-219): the same `findFirst`, then the payload is streamed from
storage (abstracted away — the route's access decision is the record). -/
def downloadFileRoute (s : Store) (fileId requester : String) : Except FileErr FileRec :=
  match s.files.find? (fileVisibleQuery fileId requester) with
  | none => .error .notFound
  | some f => .ok f

/-- Embedding of the resolution step of `GET /files/:id/preview` (files.js
lines 376-407): the same `findFirst`, then a signed URL is created for the
record (abstracted away). -/
def previewFileRoute (s : Store) (fileId requester : String) : Except FileErr FileRec :=
  match s.files.find? (fileVisibleQuery fileId requester) with
  | none => .error .notFound
  | some f => .ok f

/-! ## Storage path generation (`src/config/supabase.js`) -/

/-- The character class kept by the sanitizer: the JS replacement
`filename.replace(/[^a-zA-Z0-9.-]/g, '_')` keeps ASCII alphanumerics,
`.` and `-`. -/
def keptChar (c : Char) : Bool :=
  c.isAlphanum || c == '.' || c == '-'

/-- The sanitized display name: every character outside the kept class is
replaced by an underscore. -/
def sanitizeFilename (filename : String) : String :=
  String.mk (filename.data.map (fun c => if keptChar c then c else '_'))

/-- Embedding of `generateStoragePath(userId, folderId, filename)`: the
uniqueness token is the ambient `Date.now()` value as it appears interpolated
into the template literal, passed here as the string `timestamp`. -/
def generateStoragePath (userId : String) (folderId : Option String)
    (filename : String) (timestamp : String) : String :=
  let sanitizedFilename := sanitizeFilename filename
  let uniqueFilename := timestamp ++ "-" ++ sanitizedFilename
  match folderId with
  | some fid => userId ++ "/folders/" ++ fid ++ "/" ++ uniqueFilename
  | none => userId ++ "/root/" ++ uniqueFilename

/-! ## Upload route (`src/routes/files.js` lines 93-174) -/

/-- The upload request body after multer: the file's metadata plus the form
fields.  `isPublic` is the raw form value (the handler compares it with the
string `"true"`). -/
structure UploadReq where
  originalname : String
  mimetype : String
  size : Nat
  description : Option String
  isPublic : String
  folderId : Option String
deriving Repr, DecidableEq

/-- Outcome of the upload handler (after the validation / missing-file guards,
which redirect without touching the store): a storage `put` failure, a
metadata-write (`prisma.file.create`) failure, or success. -/
inductive UploadResp
  | storageError
  | dbError
  | success
deriving Repr, DecidableEq

/-- The folder-ownership fallback of the upload handler (files.js lines
119-131): a supplied `folderId` is kept only when a folder with that id owned
by the uploader exists; otherwise it is silently reset to `null`. -/
def validateUploadFolder (s : Store) (userId : String) (folderId : Option String) :
    Option String :=
  match folderId with
  | none => none
  | some fid =>
    if (s.folders.find? (fun f => f.id == fid && f.userId == userId)).isSome then some fid
    else none

/-- The `File` record the upload handler persists (files.js lines 151-163),
given the already-validated folder id.  `filename` is the last `/`-segment of
the storage path (`storagePath.split('/').pop()`). -/
def uploadedFile (userId newFileId : String) (req : UploadReq) (timestamp : String)
    (folderId : Option String) : FileRec :=
  let storagePath := generateStoragePath userId folderId req.originalname timestamp
  { id := newFileId
    filename := (storagePath.splitOn "/").getLastD ""
    originalName := req.originalname
    mimeType := req.mimetype
    size := req.size
    storagePath := some storagePath
    description := req.description
    isPublic := req.isPublic == "true"
    userId := userId
    folderId := folderId }

/-- Embedding of `POST /files/upload` (files.js lines 93-174) after the
validation guards: validate (and possibly clear) the folder id, generate the
storage path, `put` the bytes (outcome `putError`), and on storage success run
`prisma.file.create` (outcome `dbOk`; a throw is caught and reported as an
error flash, leaving the store unchanged). -/
def uploadRoute (s : Store) (userId newFileId : String) (req : UploadReq)
    (timestamp : String) (putError : Bool) (dbOk : Bool) : Store × UploadResp :=
  let folderId := validateUploadFolder s userId req.folderId
  if putError then (s, .storageError)
  else if dbOk then
    ({ s with files := s.files ++ [uploadedFile userId newFileId req timestamp folderId] },
     .success)
  else (s, .dbError)

/-! ## Spec-side notions

These definitions follow the specification's words (parent chain, subtree
containment, breadcrumb chain, bounded root walk); the claims compare the
route embeddings above against them. -/

/-- The parent link of a folder id in the store, as the walks read it: the
`parentId` of the first folder row with that id, `none` when the row is
missing or a root. -/
def parentOf (s : Store) (i : String) : Option String :=
  match s.folders.find? (fun f => f.id == i) with
  | none => none
  | some f => f.parentId

/-- The id reached after `n` upward steps through parent links, `none` once
the chain has ended. -/
def chainFrom (s : Store) (i : String) : Nat → Option String
  | 0 => some i
  | n + 1 =>
    match chainFrom s i n with
    | none => none
    | some j => parentOf s j

/-- Spec-side subtree containment: walking up from `i` through parent links
reaches `root` after some number of steps. -/
def inSubtree (s : Store) (root i : String) : Prop :=
  ∃ n, chainFrom s i n = some root

/-- Spec-side breadcrumb correctness: `p` is the chain of `(id, name)` pairs
from `root` down to `fid`, excluding `root` itself — the head of `p` is a
folder whose parent is `root`, each entry is the parent of the next, and the
chain ends at `fid` (empty exactly when `fid = root`). -/
def descChain (s : Store) : String → String → List (String × String) → Prop
  | root, fid, [] => fid = root
  | root, fid, (i, nm) :: rest =>
    (∃ f, s.folders.find? (fun g => g.id == i) = some f ∧ f.name = nm ∧
       f.parentId = some root) ∧ descChain s i fid rest

/-- Spec-side bounded root walk (spec §8.1): starting from `i`, follow parent
links; `true` when a folder with `parentId = null` is reached within `fuel`
steps. -/
def walkReachesRoot (s : Store) : Nat → String → Bool
  | 0, _ => false
  | fuel + 1, i =>
    match s.folders.find? (fun f => f.id == i) with
    | none => false
    | some f =>
      match f.parentId with
      | none => true
      | some p => walkReachesRoot s fuel p

/-! ## Claim C8: upload atomicity -/

/-- Claim C8: for every upload, a storage `put` error aborts the operation
with the store unchanged and no `File` record created, and a metadata-write
failure after a successful `put` is reported as a failure (`dbError`), never
as `success`. -/
theorem c8_upload_atomicity (s : Store) (userId newFileId : String) (req : UploadReq)
    (timestamp : String) :
    (∀ dbOk, uploadRoute s userId newFileId req timestamp true dbOk = (s, .storageError)) ∧
    uploadRoute s userId newFileId req timestamp false false = (s, .dbError) ∧
    (UploadResp.dbError == UploadResp.success) = false ∧
    (UploadResp.storageError == UploadResp.success) = false := by
  refine ⟨fun dbOk => rfl, rfl, by decide, by decide⟩

/-! ## Claim C10: non-empty delete guard -/

/-- Claim C10: owner deletion of a folder yields `notEmpty` and leaves the
store completely unchanged whenever the folder has at least one child folder
or at least one file; only a folder with zero children and zero files is
removed, and nothing is ever cascaded. -/
theorem c10_delete_guard (s : Store) (folderId userId : String) :
    (s.folders.find? (fun f => f.id == folderId && f.userId == userId)).isSome →
    ((childrenOf s folderId ≠ [] ∨ filesOf s folderId ≠ []) →
        deleteFolderRoute s folderId userId = (s, .notEmpty)) ∧
      (childrenOf s folderId = [] → filesOf s folderId = [] →
        deleteFolderRoute s folderId userId =
          ({ s with folders := s.folders.filter (fun f => !(f.id == folderId)),
                    shares := s.shares.filter (fun sh => !(sh.folderId == folderId)) },
           .success)) := by
  intro hfind
  obtain ⟨f, hf⟩ := Option.isSome_iff_exists.mp hfind
  constructor
  · intro hne
    unfold deleteFolderRoute
    rw [hf]
    have hcond : (s.folders.filter (fun g => g.parentId == some folderId)).length > 0 ∨
        (s.files.filter (fun g => g.folderId == some folderId)).length > 0 := by
      rcases hne with h | h
      · exact Or.inl (List.length_pos.mpr h)
      · exact Or.inr (List.length_pos.mpr h)
    simp only [if_pos hcond]
  · intro hc hfi
    unfold deleteFolderRoute
    rw [hf]
    have hcond : ¬ ((s.folders.filter (fun g => g.parentId == some folderId)).length > 0 ∨
        (s.files.filter (fun g => g.folderId == some folderId)).length > 0) := by
      rw [not_or]
      constructor
      · simp only [childrenOf] at hc
        simp [hc]
      · simp only [filesOf] at hfi
        simp [hfi]
    simp only [if_neg hcond]

/-- Concrete witness for C10: a user's folder holding one file is not deleted
(`notEmpty`, store unchanged), and an empty folder of the same user is
removed. -/
theorem c10_delete_guard_witness :
    (deleteFolderRoute
        ⟨[⟨"a", "docs", none, "u", none⟩, ⟨"b", "empty", none, "u", none⟩],
         [⟨"f1", "x", "x", "text/plain", 1, some "p", none, false, "u", some "a"⟩],
         []⟩ "a" "u" =
      (⟨[⟨"a", "docs", none, "u", none⟩, ⟨"b", "empty", none, "u", none⟩],
        [⟨"f1", "x", "x", "text/plain", 1, some "p", none, false, "u", some "a"⟩],
        []⟩, .notEmpty)) ∧
    (deleteFolderRoute
        ⟨[⟨"a", "docs", none, "u", none⟩, ⟨"b", "empty", none, "u", none⟩],
         [⟨"f1", "x", "x", "text/plain", 1, some "p", none, false, "u", some "a"⟩],
         []⟩ "b" "u" =
      (⟨[⟨"a", "docs", none, "u", none⟩],
        [⟨"f1", "x", "x", "text/plain", 1, some "p", none, false, "u", some "a"⟩],
        []⟩, .success)) := by
  constructor
  · exact ((c10_delete_guard _ "a" "u" (by decide)).1 (Or.inr (by decide)))
  · have h := (c10_delete_guard
      ⟨[⟨"a", "docs", none, "u", none⟩, ⟨"b", "empty", none, "u", none⟩],
       [⟨"f1", "x", "x", "text/plain", 1, some "p", none, false, "u", some "a"⟩],
       []⟩ "b" "u" (by decide)).2 (by decide) (by decide)
    rw [h]
    decide

/-! ## Claim C6: file visibility conflation -/

/-- Claim C6: the file info route (and the download and preview routes, which
use the identical lookup) returns a file exactly when a stored file with the
requested id is owned by the requester or public; in every other case —
including a wholly absent id — the response is the 404 `notFound`, so
unauthorized access is indistinguishable from non-existence. -/
theorem c6_visibility_conflation (s : Store) (fileId requester : String) :
    (∀ f, getFileInfoRoute s fileId requester = .ok f →
        f ∈ s.files ∧ f.id = fileId ∧ (f.userId = requester ∨ f.isPublic = true)) ∧
    ((getFileInfoRoute s fileId requester = .error .notFound) ↔
        ¬ ∃ f ∈ s.files, f.id = fileId ∧ (f.userId = requester ∨ f.isPublic = true)) ∧
    downloadFileRoute s fileId requester = getFileInfoRoute s fileId requester ∧
    previewFileRoute s fileId requester = getFileInfoRoute s fileId requester := by
  have hq : ∀ f : FileRec, fileVisibleQuery fileId requester f = true ↔
      (f.id = fileId ∧ (f.userId = requester ∨ f.isPublic = true)) := by
    intro f
    simp [fileVisibleQuery]
  refine ⟨?_, ?_, rfl, rfl⟩
  · intro f hok
    unfold getFileInfoRoute at hok
    cases hfind : s.files.find? (fileVisibleQuery fileId requester) with
    | none => rw [hfind] at hok; exact absurd hok (by simp)
    | some g =>
      rw [hfind] at hok
      have hgf : g = f := by injection hok
      subst hgf
      exact ⟨List.mem_of_find?_eq_some hfind, (hq g).mp (List.find?_some hfind)⟩
  · unfold getFileInfoRoute
    cases hfind : s.files.find? (fileVisibleQuery fileId requester) with
    | none =>
      rw [List.find?_eq_none] at hfind
      simp only [reduceCtorEq, true_iff]
      rintro ⟨f, hmem, hf⟩
      exact hfind f hmem ((hq f).mpr hf)
    | some g =>
      simp only [reduceCtorEq, false_iff, not_not]
      exact ⟨g, List.mem_of_find?_eq_some hfind, (hq g).mp (List.find?_some hfind)⟩

/-- Concrete witness for C6: the owner sees their private file, a stranger
gets 404 for it, a stranger sees a public file, and a missing id gives the
same 404. -/
theorem c6_visibility_conflation_witness :
    getFileInfoRoute
        ⟨[], [⟨"f1", "a", "a", "t", 1, some "p", none, false, "u", none⟩,
              ⟨"f2", "b", "b", "t", 1, some "q", none, true, "u", none⟩], []⟩
        "f1" "u" = .ok ⟨"f1", "a", "a", "t", 1, some "p", none, false, "u", none⟩ ∧
    getFileInfoRoute
        ⟨[], [⟨"f1", "a", "a", "t", 1, some "p", none, false, "u", none⟩,
              ⟨"f2", "b", "b", "t", 1, some "q", none, true, "u", none⟩], []⟩
        "f1" "stranger" = .error .notFound ∧
    getFileInfoRoute
        ⟨[], [⟨"f1", "a", "a", "t", 1, some "p", none, false, "u", none⟩,
              ⟨"f2", "b", "b", "t", 1, some "q", none, true, "u", none⟩], []⟩
        "f2" "stranger" = .ok ⟨"f2", "b", "b", "t", 1, some "q", none, true, "u", none⟩ ∧
    getFileInfoRoute
        ⟨[], [⟨"f1", "a", "a", "t", 1, some "p", none, false, "u", none⟩,
              ⟨"f2", "b", "b", "t", 1, some "q", none, true, "u", none⟩], []⟩
        "zz" "stranger" = .error .notFound := by
  refine ⟨rfl, ?_, rfl, ?_⟩
  · exact (c6_visibility_conflation
      ⟨[], [⟨"f1", "a", "a", "t", 1, some "p", none, false, "u", none⟩,
            ⟨"f2", "b", "b", "t", 1, some "q", none, true, "u", none⟩], []⟩
      "f1" "stranger").2.1.mpr (by decide)
  · exact (c6_visibility_conflation
      ⟨[], [⟨"f1", "a", "a", "t", 1, some "p", none, false, "u", none⟩,
            ⟨"f2", "b", "b", "t", 1, some "q", none, true, "u", none⟩], []⟩
      "zz" "stranger").2.1.mpr (by decide)

/-! ## Claim C5: share token resolution -/

/-- Claim C5: resolving a share token yields the 404 `notFound` when no row
has the token; yields `expired` — a distinct error — when the row exists and
the current time is strictly after `expiresAt`; and otherwise returns the
shared root folder with exactly its immediate files and immediate child
folders and an empty breadcrumb. -/
theorem c5_share_token_lifecycle (s : Store) (now : Nat) (token : String) :
    (s.shares.find? (fun r => r.token == token) = none →
        resolveShare s now token = .error .notFound) ∧
    (∀ sh, s.shares.find? (fun r => r.token == token) = some sh →
        ((sh.expiresAt < now → resolveShare s now token = .error .expired) ∧
          (¬ sh.expiresAt < now → ∀ root,
            s.folders.find? (fun f => f.id == sh.folderId) = some root →
            resolveShare s now token =
              .ok ⟨root, filesOf s root.id, childrenOf s root.id, []⟩))) ∧
    ShareErr.expired ≠ ShareErr.notFound := by
  refine ⟨?_, ?_, by decide⟩
  · intro hnone
    simp [resolveShare, hnone]
  · intro sh hfind
    constructor
    · intro hlt
      have hexp : isExpired now sh.expiresAt = true := decide_eq_true hlt
      simp [resolveShare, hfind, hexp]
    · intro hge root hroot
      have hexp : isExpired now sh.expiresAt = false := decide_eq_false hge
      simp [resolveShare, hfind, hexp, hroot]

/-- Concrete witness for C5 (the spec's token-lifecycle scenario scaled down):
a share expiring at time 100 resolves at time 99, is `expired` at time 101,
and an unissued token is `notFound`. -/
theorem c5_share_token_lifecycle_witness :
    resolveShare ⟨[⟨"A", "root", none, "u", none⟩], [], [⟨"s1", "tok", 100, "A", "u"⟩]⟩
        99 "tok" = .ok ⟨⟨"A", "root", none, "u", none⟩, [], [], []⟩ ∧
    resolveShare ⟨[⟨"A", "root", none, "u", none⟩], [], [⟨"s1", "tok", 100, "A", "u"⟩]⟩
        101 "tok" = .error .expired ∧
    resolveShare ⟨[⟨"A", "root", none, "u", none⟩], [], [⟨"s1", "tok", 100, "A", "u"⟩]⟩
        99 "zz" = .error .notFound := by
  refine ⟨?_, ?_, ?_⟩
  · exact ((c5_share_token_lifecycle
      ⟨[⟨"A", "root", none, "u", none⟩], [], [⟨"s1", "tok", 100, "A", "u"⟩]⟩ 99 "tok").2.1
      ⟨"s1", "tok", 100, "A", "u"⟩ (by decide)).2 (by decide)
      ⟨"A", "root", none, "u", none⟩ (by decide)
  · exact ((c5_share_token_lifecycle
      ⟨[⟨"A", "root", none, "u", none⟩], [], [⟨"s1", "tok", 100, "A", "u"⟩]⟩ 101 "tok").2.1
      ⟨"s1", "tok", 100, "A", "u"⟩ (by decide)).1 (by decide)
  · exact (c5_share_token_lifecycle
      ⟨[⟨"A", "root", none, "u", none⟩], [], [⟨"s1", "tok", 100, "A", "u"⟩]⟩ 99 "zz").1
      (by decide)

/-! ## Claim C9: silent folder fallback on upload -/

/-- Claim C9: when an upload supplies a `folderId` that names no folder owned
by the uploader (missing, or owned by someone else), the upload still succeeds
— the created record simply has no folder (`folderId = none`) — and no error
is reported on this path. -/
theorem c9_upload_folder_fallback (s : Store) (userId newFileId : String)
    (req : UploadReq) (timestamp : String) (fid : String)
    (hreq : req.folderId = some fid)
    (hmiss : s.folders.find? (fun f => f.id == fid && f.userId == userId) = none) :
    uploadRoute s userId newFileId req timestamp false true =
      ({ s with files := s.files ++ [uploadedFile userId newFileId req timestamp none] },
        .success) ∧
    (uploadedFile userId newFileId req timestamp none).folderId = none := by
  constructor
  · simp [uploadRoute, validateUploadFolder, hreq, hmiss]
  · rfl

/-- Store for the C9 witness: the only folder belongs to user `other`. -/
def c9Store : Store := ⟨[⟨"p", "theirs", none, "other", none⟩], [], []⟩

/-- Upload request for the C9 witness: targets folder `p`, which the uploader
`u` does not own. -/
def c9Req : UploadReq := ⟨"a.txt", "text/plain", 3, none, "false", some "p"⟩

/-- Concrete witness for C9: uploading into another user's folder succeeds
with the folder silently cleared. -/
theorem c9_upload_folder_fallback_witness :
    uploadRoute c9Store "u" "nf" c9Req "1000" false true =
      ({ c9Store with
          files := c9Store.files ++ [uploadedFile "u" "nf" c9Req "1000" none] },
        .success) ∧
    (uploadedFile "u" "nf" c9Req "1000" none).folderId = none :=
  c9_upload_folder_fallback c9Store "u" "nf" c9Req "1000" "p" rfl (by decide)

/-! ## Claim C1: the folder-move cycle guard is absent -/

/-- Store for C1: one user `u` owning a single root folder `a`. -/
def c1Store : Store := ⟨[⟨"a", "stuff", none, "u", none⟩], [], []⟩

/-- The store after asking to move folder `a` under itself. -/
def c1Store' : Store := ⟨[⟨"a", "stuff", none, "u", some "a"⟩], [], []⟩

/-- Claim C1 is false of the code: the folder update route accepts
`parentId = a` for folder `a` itself — it performs no ancestor walk and
returns success rather than any `InvalidOperation`, the parent changes, and
in the resulting store the parent-chain walk from `a` never reaches a root
(in particular not within the owner's total folder count, 1). -/
theorem c1_move_cycle_guard_missing :
    updateFolderRoute c1Store "a" "u" "stuff" none (some "a") = (c1Store', .success) ∧
    (∀ n, walkReachesRoot c1Store' n "a" = false) := by
  refine ⟨by decide, ?_⟩
  intro n
  induction n with
  | zero => rfl
  | succ k ih =>
    have hstep : walkReachesRoot c1Store' (k + 1) "a" = walkReachesRoot c1Store' k "a" := rfl
    rw [hstep, ih]

/-! ## Claim C2: the share-traversal walks do not terminate on cyclic data -/

/-- Store for C2: user `u` owns root folder `r` (shared under token `tok`) and
a corrupted folder `x` whose parent link points to itself — a cycle not
passing through the shared root.  Such a store is reachable through the
application itself, since the folder update route performs no cycle check. -/
def c2Store : Store :=
  ⟨[⟨"r", "root", none, "u", none⟩, ⟨"x", "loop", none, "u", some "x"⟩], [],
   [⟨"s1", "tok", 100, "r", "u"⟩]⟩

/-- Helper: the subfolder share route, once the token has resolved, is decided
entirely by the two walks. -/
theorem resolveSubfolder_eq (s : Store) (now fuel : Nat) (token folderId : String)
    (sh : SharedFolder) (F : Folder)
    (h1 : s.shares.find? (fun r => r.token == token) = some sh)
    (h2 : isExpired now sh.expiresAt = false)
    (h3 : s.folders.find? (fun f => f.id == folderId) = some F) :
    resolveSubfolder s now fuel token folderId =
      match verifyFolderInHierarchy s fuel folderId sh.folderId with
      | none => none
      | some false => some (.error .forbidden)
      | some true =>
        match buildFolderPath s fuel (some folderId) sh.folderId with
        | none => none
        | some path =>
          some (.ok ⟨F, filesOf s folderId, childrenOf s folderId, path⟩) := by
  simp [resolveSubfolder, h1, h2, h3]

/-- Claim C2 is false of the code: on the cyclic store `c2Store`, neither of
the two parent-chain walks of the public share traversal produces an answer
within any number of steps — the subtree-membership check, the breadcrumb
construction, and hence the whole subfolder request for `x` under the share
of `r` all diverge (no fuel suffices). -/
theorem c2_share_walks_diverge :
    (∀ fuel, verifyFolderInHierarchy c2Store fuel "x" "r" = none) ∧
    (∀ fuel, buildFolderPath c2Store fuel (some "x") "r" = none) ∧
    (∀ fuel, resolveSubfolder c2Store 0 fuel "tok" "x" = none) := by
  have hverify : ∀ fuel, verifyFolderInHierarchy c2Store fuel "x" "r" = none := by
    intro fuel
    induction fuel with
    | zero => rfl
    | succ k ih =>
      have hstep : verifyFolderInHierarchy c2Store (k + 1) "x" "r" =
          verifyFolderInHierarchy c2Store k "x" "r" := rfl
      rw [hstep, ih]
  have hbuild : ∀ fuel, buildFolderPath c2Store fuel (some "x") "r" = none := by
    intro fuel
    induction fuel with
    | zero => rfl
    | succ k ih =>
      have hstep : buildFolderPath c2Store (k + 1) (some "x") "r" =
          (buildFolderPath c2Store k (some "x") "r").map
            (fun rest => rest ++ [("x", "loop")]) := rfl
      rw [hstep, ih]
      rfl
  refine ⟨hverify, hbuild, ?_⟩
  intro fuel
  rw [resolveSubfolder_eq c2Store 0 fuel "tok" "x" ⟨"s1", "tok", 100, "r", "u"⟩
    ⟨"x", "loop", none, "u", some "x"⟩ (by decide) (by decide) (by decide)]
  rw [hverify fuel]

/-! ## Claim C3: folder creation does not verify the parent -/

/-- Store for C3: the only folder belongs to user `u1`. -/
def c3Store : Store := ⟨[⟨"p", "parent", none, "u1", none⟩], [], []⟩

/-- Claim C3 is false of the code at this input: user `u2` creates a folder
under `u1`'s folder `p`; the route succeeds and the record is created with the
cross-owner parent, instead of failing with `NotFound` and creating nothing. -/
theorem c3_create_parent_check_counterexample :
    (createFolderRoute c3Store "u2" "n" "child" none (some "p")).2 = .success ∧
    (createFolderRoute c3Store "u2" "n" "child" none (some "p")).1.folders =
      [⟨"p", "parent", none, "u1", none⟩, ⟨"n", "child", none, "u2", some "p"⟩] ∧
    (("u2" : String) == "u1") = false := by
  refine ⟨rfl, rfl, by decide⟩

/-- Claim C3 as amended: folder creation checks only for a sibling-name
collision.  When no sibling collides, a supplied parent that exists in the
store — even one owned by another user — is accepted and the folder is
created under it; a parent id with no folder row at all fails only through
the store's foreign-key constraint, as the generic `dbError`, with no record
created. -/
theorem c3_create_parent_check_amended (s : Store) (userId newId name : String)
    (description : Option String) (p : String)
    (hnosib : ¬ ∃ f ∈ s.folders,
      f.name = jsTrim name ∧ f.userId = userId ∧ f.parentId = some p) :
    ((¬ ∃ f ∈ s.folders, f.id = p) →
        createFolderRoute s userId newId name description (some p) = (s, .dbError)) ∧
    ((∃ f ∈ s.folders, f.id = p) →
        createFolderRoute s userId newId name description (some p) =
          ({ s with folders :=
              s.folders ++ [⟨newId, jsTrim name, description.map jsTrim, userId, some p⟩] },
            .success)) := by
  have hsib : s.folders.find? (fun f =>
      f.name == jsTrim name && f.userId == userId && f.parentId == some p) = none := by
    rw [List.find?_eq_none]
    intro f hmem hpred
    simp only [Bool.and_eq_true, beq_iff_eq] at hpred
    exact hnosib ⟨f, hmem, hpred.1.1, hpred.1.2, hpred.2⟩
  constructor
  · intro hnopar
    have hpar : s.folders.find? (fun f => f.id == p) = none := by
      rw [List.find?_eq_none]
      intro f hmem hpred
      exact hnopar ⟨f, hmem, by simpa using hpred⟩
    simp [createFolderRoute, hsib, hpar]
  · intro hpar
    have hpar' : (s.folders.find? (fun f => f.id == p)).isSome := by
      rw [List.find?_isSome]
      obtain ⟨f, hmem, hid⟩ := hpar
      exact ⟨f, hmem, by simpa using hid⟩
    simp [createFolderRoute, hsib, hpar']

/-- Concrete witness for the amended C3: the cross-owner creation of the
counterexample, produced by the amended theorem. -/
theorem c3_create_parent_check_witness :
    createFolderRoute c3Store "u2" "n" "child" none (some "p") =
      ({ c3Store with folders :=
          c3Store.folders ++ [⟨"n", "child", none, "u2", some "p"⟩] },
        .success) :=
  (c3_create_parent_check_amended c3Store "u2" "n" "child" none "p"
      (by decide)).2 ⟨⟨"p", "parent", none, "u1", none⟩, by decide, rfl⟩

/-! ## Claim C7: storage-path uniqueness -/

/-- Cancellation of a shared prefix of string concatenation. -/
theorem string_append_cancel_left {a b c : String} (h : a ++ b = a ++ c) : b = c := by
  have hd : a.data ++ b.data = a.data ++ c.data := by
    have := congrArg String.data h
    simpa [String.data_append] using this
  have h3 : b.data = c.data := List.append_cancel_left hd
  cases b with
  | mk db =>
    cases c with
    | mk dc => exact congrArg String.mk h3

/-- Cancellation of a shared suffix of string concatenation. -/
theorem string_append_cancel_right {a b c : String} (h : a ++ b = c ++ b) : a = c := by
  have hd : a.data ++ b.data = c.data ++ b.data := by
    have := congrArg String.data h
    simpa [String.data_append] using this
  have h3 : a.data = c.data := List.append_cancel_right hd
  cases a with
  | mk da =>
    cases c with
    | mk dc => exact congrArg String.mk h3

/-- Two upload requests for the C7 counterexample, identical except for the
description. -/
def c7Req1 : UploadReq := ⟨"report final.pdf", "application/pdf", 10, none, "false", none⟩

/-- Second request of the C7 counterexample. -/
def c7Req2 : UploadReq :=
  ⟨"report final.pdf", "application/pdf", 10, some "v2", "false", none⟩

/-- Claim C7 is false of the code at this input: two distinct uploads (they
differ in description and get distinct record ids) by the same owner, into
the root, with the same display name, both happening at `Date.now() = 1000`,
receive the identical storage path — the uniqueness token is only the
millisecond timestamp, so same-millisecond uploads collide. -/
theorem c7_storage_path_counterexample :
    (c7Req1 == c7Req2) = false ∧
    (uploadedFile "u" "f1" c7Req1 "1000" none).storagePath =
      (uploadedFile "u" "f2" c7Req2 "1000" none).storagePath ∧
    (uploadedFile "u" "f1" c7Req1 "1000" none).storagePath =
      some "u/root/1000-report_final.pdf" := by
  refine ⟨by decide, rfl, ?_⟩
  show some (generateStoragePath "u" none "report final.pdf" "1000") =
    some "u/root/1000-report_final.pdf"
  rfl

/-- Claim C7 as amended: storage paths of two uploads with identical owner
key, folder key and display name are distinct whenever their uniqueness
tokens (the interpolated `Date.now()` values) differ — only same-millisecond
uploads collide; and each path is exactly the owner key, the literal
`folders`/`root` segment, the folder key when present, the token, and the
display name with every character other than ASCII alphanumerics, `.` and
`-` replaced by `_`. -/
theorem c7_storage_path_amended (userId : String) (folderId : Option String)
    (filename : String) (t1 t2 : String) :
    (t1 ≠ t2 → generateStoragePath userId folderId filename t1 ≠
        generateStoragePath userId folderId filename t2) ∧
    (∀ k, generateStoragePath userId (some k) filename t1 =
        userId ++ "/folders/" ++ k ++ "/" ++ (t1 ++ "-" ++ sanitizeFilename filename)) ∧
    generateStoragePath userId none filename t1 =
      userId ++ "/root/" ++ (t1 ++ "-" ++ sanitizeFilename filename) ∧
    (sanitizeFilename filename).data =
      filename.data.map
        (fun c => if c.isAlphanum = true ∨ c = '.' ∨ c = '-' then c else '_') := by
    refine ⟨?_, fun k => rfl, rfl, ?_⟩
    · intro hne heq
      apply hne
      cases folderId with
      | none =>
        have h1 : (userId ++ "/root/") ++ (t1 ++ "-" ++ sanitizeFilename filename) =
            (userId ++ "/root/") ++ (t2 ++ "-" ++ sanitizeFilename filename) := by
          simpa [generateStoragePath, String.append_assoc] using heq
        have h2 := string_append_cancel_left h1
        exact string_append_cancel_right (string_append_cancel_right h2)
      | some k =>
        have h1 : (userId ++ "/folders/" ++ k ++ "/") ++
              (t1 ++ "-" ++ sanitizeFilename filename) =
            (userId ++ "/folders/" ++ k ++ "/") ++
              (t2 ++ "-" ++ sanitizeFilename filename) := by
          simpa [generateStoragePath, String.append_assoc] using heq
        have h2 := string_append_cancel_left h1
        exact string_append_cancel_right (string_append_cancel_right h2)
    · show (filename.data.map (fun c => if keptChar c then c else '_')) = _
      apply List.map_congr_left
      intro c _
      by_cases h : c.isAlphanum = true ∨ c = '.' ∨ c = '-'
      · rw [if_pos h]
        have hk : keptChar c = true := by
          simp only [keptChar, Bool.or_eq_true, beq_iff_eq]
          tauto
        rw [hk, if_pos rfl]
      · rw [if_neg h]
        have hk : keptChar c = false := by
          cases hcb : keptChar c with
          | false => rfl
          | true =>
            exfalso
            apply h
            simp only [keptChar, Bool.or_eq_true, beq_iff_eq] at hcb
            tauto
        rw [hk]
        simp

/-- Concrete witness for the amended C7: uploads at two different
milliseconds with identical owner, folder and name get distinct paths. -/
theorem c7_storage_path_witness :
    generateStoragePath "u" (some "k") "report final.pdf" "1000" ≠
      generateStoragePath "u" (some "k") "report final.pdf" "1001" :=
  (c7_storage_path_amended "u" (some "k") "report final.pdf" "1000" "1001").1 (by decide)

/-! ## Claim C4: subtree containment of the share traversal -/

/-- Helper: one upward step commutes with the rest of the chain. -/
theorem chainFrom_succ_shift (s : Store) (i : String) :
    ∀ n, chainFrom s i (n + 1) =
      match parentOf s i with
      | none => none
      | some p => chainFrom s p n := by
  intro n
  induction n with
  | zero =>
    show (match chainFrom s i 0 with
          | none => none
          | some j => parentOf s j) = _
    cases hp : parentOf s i with
    | none => simp [chainFrom, hp]
    | some p => simp [chainFrom, hp]
  | succ k ih =>
    show (match chainFrom s i (k + 1) with
          | none => none
          | some j => parentOf s j) = _
    rw [ih]
    cases hp : parentOf s i with
    | none => rfl
    | some p => rfl

/-- Helper: a `true` answer of the membership walk is sound — the parent
chain from `i` really reaches `root`. -/
theorem verify_true_inSubtree (s : Store) :
    ∀ (fuel : Nat) (i root : String),
      verifyFolderInHierarchy s fuel i root = some true → inSubtree s root i := by
  intro fuel
  induction fuel with
  | zero =>
    intro i root h
    exact absurd h (by simp [verifyFolderInHierarchy])
  | succ k ih =>
    intro i root h
    by_cases hir : i = root
    · exact ⟨0, by simp [chainFrom, hir]⟩
    · unfold verifyFolderInHierarchy at h
      rw [if_neg hir] at h
      cases hf : s.folders.find? (fun f => f.id == i) with
      | none => rw [hf] at h; exact absurd h (by simp)
      | some f =>
        rw [hf] at h
        dsimp only at h
        cases hp : f.parentId with
        | none => rw [hp] at h; exact absurd h (by simp)
        | some p =>
          rw [hp] at h
          obtain ⟨n, hn⟩ := ih p root h
          refine ⟨n + 1, ?_⟩
          rw [chainFrom_succ_shift]
          have hpo : parentOf s i = some p := by
            unfold parentOf
            rw [hf]
            dsimp only
            exact hp
          rw [hpo]
          exact hn

/-- Helper: a `false` answer of the membership walk is sound — the parent
chain from `i` never reaches `root`. -/
theorem verify_false_not_inSubtree (s : Store) :
    ∀ (fuel : Nat) (i root : String),
      verifyFolderInHierarchy s fuel i root = some false → ¬ inSubtree s root i := by
  intro fuel
  induction fuel with
  | zero =>
    intro i root h
    exact absurd h (by simp [verifyFolderInHierarchy])
  | succ k ih =>
    intro i root h
    by_cases hir : i = root
    · unfold verifyFolderInHierarchy at h
      rw [if_pos hir] at h
      exact absurd h (by simp)
    · unfold verifyFolderInHierarchy at h
      rw [if_neg hir] at h
      rintro ⟨n, hn⟩
      cases hf : s.folders.find? (fun f => f.id == i) with
      | none =>
        cases n with
        | zero =>
          simp [chainFrom] at hn
          exact hir hn
        | succ m =>
          rw [chainFrom_succ_shift] at hn
          have hpo : parentOf s i = none := by
            unfold parentOf
            rw [hf]
          rw [hpo] at hn
          exact absurd hn (by simp)
      | some f =>
        rw [hf] at h
        dsimp only at h
        cases hp : f.parentId with
        | none =>
          cases n with
          | zero =>
            simp [chainFrom] at hn
            exact hir hn
          | succ m =>
            rw [chainFrom_succ_shift] at hn
            have hpo : parentOf s i = none := by
              unfold parentOf
              rw [hf]
              dsimp only
              exact hp
            rw [hpo] at hn
            exact absurd hn (by simp)
        | some p =>
          rw [hp] at h
          cases n with
          | zero =>
            simp [chainFrom] at hn
            exact hir hn
          | succ m =>
            rw [chainFrom_succ_shift] at hn
            have hpo : parentOf s i = some p := by
              unfold parentOf
              rw [hf]
              dsimp only
              exact hp
            rw [hpo] at hn
            exact ih p root h ⟨m, hn⟩

/-- Helper: extending a root-to-`c` breadcrumb chain by a child `d` of `c`. -/
theorem descChain_snoc (s : Store) (f : Folder) :
    ∀ (p : List (String × String)) (root c d : String),
      descChain s root c p →
      s.folders.find? (fun g => g.id == d) = some f →
      f.parentId = some c →
      descChain s root d (p ++ [(d, f.name)]) := by
  intro p
  induction p with
  | nil =>
    intro root c d hchain hf hp
    have hcr : c = root := hchain
    refine ⟨⟨f, hf, rfl, ?_⟩, rfl⟩
    rw [hp, hcr]
  | cons entry rest ih =>
    intro root c d hchain hf hp
    obtain ⟨i, nm⟩ := entry
    obtain ⟨hlink, hrest⟩ := hchain
    exact ⟨hlink, ih i c d hrest hf hp⟩

/-- Helper: when the membership walk answers `true`, the breadcrumb loop
finishes with the same fuel and returns exactly the chain from the root down
to the requested folder (the root excluded). -/
theorem build_of_verify_true (s : Store) :
    ∀ (fuel : Nat) (i root : String),
      verifyFolderInHierarchy s fuel i root = some true →
      ∃ p, buildFolderPath s fuel (some i) root = some p ∧ descChain s root i p := by
  intro fuel
  induction fuel with
  | zero =>
    intro i root h
    exact absurd h (by simp [verifyFolderInHierarchy])
  | succ k ih =>
    intro i root h
    by_cases hir : i = root
    · refine ⟨[], ?_, hir⟩
      unfold buildFolderPath
      dsimp only
      rw [if_pos hir]
    · unfold verifyFolderInHierarchy at h
      rw [if_neg hir] at h
      cases hf : s.folders.find? (fun f => f.id == i) with
      | none => rw [hf] at h; exact absurd h (by simp)
      | some f =>
        rw [hf] at h
        dsimp only at h
        cases hp : f.parentId with
        | none => rw [hp] at h; exact absurd h (by simp)
        | some p =>
          rw [hp] at h
          obtain ⟨pl, hbuild, hchain⟩ := ih p root h
          have hfid : f.id = i := by
            have h2 := List.find?_some hf
            simpa using h2
          refine ⟨pl ++ [(f.id, f.name)], ?_, ?_⟩
          · unfold buildFolderPath
            dsimp only
            rw [if_neg hir, hf]
            dsimp only
            rw [hp, hbuild]
            rfl
          · rw [hfid]
            refine descChain_snoc s f pl root p i hchain ?_ hp
            exact hf

/-- Claim C4: once a valid, unexpired share token rooted at `sh.folderId` has
resolved and the requested folder `F` exists, and the membership walk has
answered within the available fuel, the subfolder request succeeds exactly
when the upward parent-chain walk from the folder reaches the shared root
(`inSubtree`): on success it returns `F`'s immediate files and children and a
breadcrumb that is precisely the chain from the root down to `F`, the root
itself excluded; otherwise the request is denied with `forbidden` — in
particular when the upward walk ends at a null parent under a different
root. -/
theorem c4_subtree_containment (s : Store) (now fuel : Nat) (token folderId : String)
    (sh : SharedFolder) (F : Folder) (b : Bool)
    (h1 : s.shares.find? (fun r => r.token == token) = some sh)
    (h2 : isExpired now sh.expiresAt = false)
    (h3 : s.folders.find? (fun f => f.id == folderId) = some F)
    (h4 : verifyFolderInHierarchy s fuel folderId sh.folderId = some b) :
    (b = true ↔ inSubtree s sh.folderId folderId) ∧
    (b = false →
      resolveSubfolder s now fuel token folderId = some (.error .forbidden)) ∧
    (b = true → ∃ p,
      resolveSubfolder s now fuel token folderId =
        some (.ok ⟨F, filesOf s folderId, childrenOf s folderId, p⟩) ∧
      descChain s sh.folderId folderId p) := by
  refine ⟨⟨?_, ?_⟩, ?_, ?_⟩
  · intro hb
    subst hb
    exact verify_true_inSubtree s fuel _ _ h4
  · intro hin
    cases b with
    | true => rfl
    | false => exact absurd hin (verify_false_not_inSubtree s fuel _ _ h4)
  · intro hb
    subst hb
    rw [resolveSubfolder_eq s now fuel token folderId sh F h1 h2 h3, h4]
  · intro hb
    subst hb
    obtain ⟨p, hbuild, hchain⟩ := build_of_verify_true s fuel _ _ h4
    refine ⟨p, ?_, hchain⟩
    rw [resolveSubfolder_eq s now fuel token folderId sh F h1 h2 h3, h4, hbuild]

/-- Store for the C4 witness: root `A` (shared under `tok`) with child `B`,
and an unrelated root `C`. -/
def c4Store : Store :=
  ⟨[⟨"A", "root", none, "u", none⟩, ⟨"B", "child", none, "u", some "A"⟩,
    ⟨"C", "other", none, "u", none⟩], [],
   [⟨"s1", "tok", 100, "A", "u"⟩]⟩

/-- Concrete witness for C4 (the spec's subtree-containment scenario): the
child `B` of the shared root `A` resolves with breadcrumb ending at `B`, and
the unrelated root `C` is denied with `forbidden`. -/
theorem c4_subtree_containment_witness :
    (∃ p, resolveSubfolder c4Store 0 5 "tok" "B" =
        some (.ok ⟨⟨"B", "child", none, "u", some "A"⟩, filesOf c4Store "B",
                   childrenOf c4Store "B", p⟩) ∧
      descChain c4Store "A" "B" p) ∧
    resolveSubfolder c4Store 0 5 "tok" "C" = some (.error .forbidden) ∧
    resolveSubfolder c4Store 0 5 "tok" "B" =
      some (.ok ⟨⟨"B", "child", none, "u", some "A"⟩, [], [], [("B", "child")]⟩) := by
  refine ⟨?_, ?_, rfl⟩
  · exact (c4_subtree_containment c4Store 0 5 "tok" "B" ⟨"s1", "tok", 100, "A", "u"⟩
      ⟨"B", "child", none, "u", some "A"⟩ true
      (by decide) (by decide) (by decide) (by decide)).2.2 rfl
  · exact (c4_subtree_containment c4Store 0 5 "tok" "C" ⟨"s1", "tok", 100, "A", "u"⟩
      ⟨"C", "other", none, "u", none⟩ false
      (by decide) (by decide) (by decide) (by decide)).2.1 rfl

end FileUploader
